import Mathlib

/-!
A shallow embedding of the game logic of `src/main.rs` (a snake game driven by
the ggez event loop), together with theorems about the embedded operations.

Modelling conventions:
* Rust `i32` coordinates and grid sizes become `ℤ` (no arithmetic in the game
  ever approaches the `i32` bounds); the `u32` score becomes `ℕ`.
* `f32` values are modelled exactly: every float occurring in the update
  timing code is an integer multiple of 2⁻³¹, so an `f32` is represented by
  the integer `v` standing for the real value `v·2⁻³¹`, and every operation
  rounds with the IEEE-754 round-to-nearest, ties-to-even rule at 24
  significand bits (all values stay in the binary32 normal range, far from
  overflow and underflow).
* The `LinkedList<Block>` body becomes a `List Block`, front element first.
* A Rust panic (the `expect`/`unwrap` on an empty body) is `.error .bodyEmpty`;
  the unbounded rejection-sampling loop of `add_food` consumes an explicit
  stream of random samples and reports `.error .noFuel` when that stream is
  exhausted, keeping loop-termination questions separate from panics.
-/

namespace RustedSnake

/-- Fuel-driven floor of the base-2 logarithm: `natLog2Aux fuel n` equals the
floor of log₂ n whenever `n ≤ fuel`; the structural recursion on the fuel
keeps kernel evaluation possible. -/
def natLog2Aux : ℕ → ℕ → ℕ
  | 0, _ => 0
  | fuel + 1, n => if n < 2 then 0 else natLog2Aux fuel (n / 2) + 1

/-- Floor of the base-2 logarithm of a natural number (0 for inputs 0 and 1). -/
def natLog2 (n : ℕ) : ℕ := natLog2Aux n n

/-- Round the quotient `n / d` to the nearest natural number, ties to even
(the IEEE-754 default rounding mode used by every Rust `f32` operation). -/
def roundHalfEvenDiv (n d : ℕ) : ℕ :=
  let q := n / d
  let r := n % d
  if 2 * r < d then q
  else if d < 2 * r then q + 1
  else if q % 2 = 0 then q else q + 1

/-- Round a natural number to the nearest value with at most 24 significand
bits (the binary32 significand width), ties to even. -/
def f32roundNat (n : ℕ) : ℕ :=
  if n < 2 ^ 24 then n
  else
    let shift := natLog2 n - 23
    roundHalfEvenDiv n (2 ^ shift) * 2 ^ shift

/-- Round a scaled value (the integer `n` standing for `n·2⁻³¹`) to the
nearest binary32 value, ties to even. Faithful for all values occurring in
this program: integer multiples of 2⁻³¹ well inside the normal range. -/
def f32round (n : ℤ) : ℤ :=
  if n < 0 then -(f32roundNat n.natAbs : ℤ) else (f32roundNat n.natAbs : ℤ)

/-- Floor of the base-2 logarithm of the positive rational `p / q`. -/
def floorLog2Rat (p q : ℕ) : ℤ :=
  let a := natLog2 p
  let b := natLog2 q
  if q * 2 ^ a ≤ p * 2 ^ b then (a : ℤ) - b else (a : ℤ) - b - 1

/-- The binary32 value nearest to the positive rational `p / q`, ties to even,
returned scaled by 2³¹. Faithful whenever `2⁻⁸ ≤ p / q` (every use in this
development satisfies that bound) and the value is far below the overflow
threshold. -/
def f32OfPosRat (p q : ℕ) : ℤ :=
  let e := floorLog2Rat p q
  let m := if e ≤ 23 then roundHalfEvenDiv (p * 2 ^ (23 - e).toNat) q
           else roundHalfEvenDiv p (q * 2 ^ (e - 23).toNat)
  (m : ℤ) * 2 ^ (e + 8).toNat

/-- The `f32` literal `0.15` (scaled by 2³¹): the base tick interval. -/
def c0_15 : ℤ := f32OfPosRat 15 100

/-- The `f32` literal `0.005` (scaled by 2³¹): the per-point speed-up. -/
def c0_005 : ℤ := f32OfPosRat 5 1000

/-- The `f32` literal `0.05` (scaled by 2³¹): the minimum tick interval. -/
def c0_05 : ℤ := f32OfPosRat 5 100

/-- The `f32` constant `BLOCK_SIZE = 24.0` (scaled by 2³¹). -/
def cBlockSize : ℤ := f32OfPosRat 24 1

/-- `f32` addition of two scaled values (their exact sum is again a multiple
of 2⁻³¹, so only the final rounding step is required). -/
def fadd (a b : ℤ) : ℤ := f32round (a + b)

/-- `f32` subtraction of two scaled values. -/
def fsub (a b : ℤ) : ℤ := f32round (a - b)

/-- `f32::max` on scaled values (no NaN ever occurs in this program). -/
def fmax (a b : ℤ) : ℤ := max a b

/-- `f32` multiplication in the one shape the game uses,
`score as f32 * 0.005`: the left factor is an integer-valued `f32` (given
unscaled), the right factor is scaled by 2³¹, so the exact product scaled by
2³¹ is `a * b`, which is then rounded. -/
def fmulInt (a b : ℤ) : ℤ := f32round (a * b)

/-- `f32` division of two scaled values (used only with the positive divisor
`cBlockSize`); the scaling of dividend and divisor cancels, so the result is
rounded directly from the rational `a / b`. -/
def fdiv (a b : ℤ) : ℤ :=
  if a < 0 then -f32OfPosRat a.natAbs b.natAbs else f32OfPosRat a.natAbs b.natAbs

/-- The Rust cast `as i32` applied to a scaled `f32` value: truncation toward
zero (saturation is irrelevant at the magnitudes occurring here). -/
def f32ToI32 (v : ℤ) : ℤ :=
  if v < 0 then -((v.natAbs / 2 ^ 31 : ℕ) : ℤ) else ((v.natAbs / 2 ^ 31 : ℕ) : ℤ)

/-- The movement directions of the snake (`enum Direction`). -/
inductive Direction where
  | up
  | down
  | left
  | right
deriving DecidableEq

/-- `Direction::opposite`. -/
def Direction.opposite : Direction → Direction
  | .up => .down
  | .down => .up
  | .left => .right
  | .right => .left

/-- One grid cell (`struct Block`), with `i32` coordinates. -/
structure Block where
  x : ℤ
  y : ℤ
deriving DecidableEq

/-- `struct Snake`: heading, body (front element = head), and the most
recently severed tail segment. -/
structure Snake where
  direction : Direction
  body : List Block
  tail : Option Block
deriving DecidableEq

/-- `Snake::new`: three segments, head at `(x, y)`, heading right. -/
def Snake.new (x y : ℤ) : Snake :=
  { direction := .right
    body := [⟨x, y⟩, ⟨x - 1, y⟩, ⟨x - 2, y⟩]
    tail := none }

/-- The ways an embedded operation can stop without producing a state:
`bodyEmpty` models the Rust panic on an empty snake body; `noFuel` models
exhaustion of the explicit random-sample stream feeding the unbounded
rejection-sampling loop of `add_food`. -/
inductive GameErr where
  | bodyEmpty
  | noFuel
deriving DecidableEq

/-- The new head cell produced by one step in direction `d` (the `match`
inside `Snake::move_forward`). -/
def moveOffset (d : Direction) (b : Block) : Block :=
  match d with
  | .up => ⟨b.x, b.y - 1⟩
  | .down => ⟨b.x, b.y + 1⟩
  | .left => ⟨b.x - 1, b.y⟩
  | .right => ⟨b.x + 1, b.y⟩

/-- `Snake::move_forward`: read the head (panic on an empty body), push the
offset head at the front, pop the back segment into `tail`. -/
def Snake.moveForward (s : Snake) : Except GameErr Snake :=
  match s.body with
  | [] => .error .bodyEmpty
  | head :: _ =>
    let pushed := moveOffset s.direction head :: s.body
    .ok { s with body := pushed.dropLast, tail := pushed.getLast? }

/-- `Snake::head_position` (panic on an empty body). -/
def Snake.headPosition (s : Snake) : Except GameErr (ℤ × ℤ) :=
  match s.body with
  | [] => .error .bodyEmpty
  | head :: _ => .ok (head.x, head.y)

/-- `Snake::is_overlapping_tail`: does the head coincide with any later body
segment? -/
def Snake.isOverlappingTail (s : Snake) : Except GameErr Bool :=
  match s.headPosition with
  | .error e => .error e
  | .ok (hx, hy) => .ok ((s.body.drop 1).any fun b => b.x == hx && b.y == hy)

/-- The three screens (`enum GameMode`). -/
inductive GameMode where
  | menu
  | playing
  | gameOver
deriving DecidableEq

/-- `struct GameState` (the font handle, used only for rendering, is
omitted); `time_since_last_update` is an `f32` scaled by 2³¹. -/
structure GameState where
  mode : GameMode
  snake : Snake
  food_x : ℤ
  food_y : ℤ
  score : ℕ
  time_since_last_update : ℤ
  grid_width : ℤ
  grid_height : ℤ
deriving DecidableEq

/-- Does any body segment occupy `(x, y)`? (the closure inside `add_food`). -/
def cellOccupied (body : List Block) (x y : ℤ) : Bool :=
  body.any fun b => b.x == x && b.y == y

/-- The `while occupied` rejection loop of `add_food`: keep drawing pairs from
the sample stream while the current cell is occupied. -/
def foodLoop (body : List Block) (x y : ℤ) (samples : List (ℤ × ℤ)) :
    Except GameErr (ℤ × ℤ) :=
  if cellOccupied body x y then
    match samples with
    | [] => .error .noFuel
    | (x1, y1) :: rest => foodLoop body x1 y1 rest
  else .ok (x, y)

/-- `GameState::add_food`. Each element of `samples` stands for one draw of
the pair `(gen_range(1..grid_width-1), gen_range(1..grid_height-1))`; the
range guarantee of `gen_range` is a hypothesis of the theorems below. On a
grid whose width or height is at most 2 nothing happens. -/
def GameState.addFood (gs : GameState) (samples : List (ℤ × ℤ)) :
    Except GameErr GameState :=
  if 2 < gs.grid_width ∧ 2 < gs.grid_height then
    match samples with
    | [] => .error .noFuel
    | (x0, y0) :: rest =>
      match foodLoop gs.snake.body x0 y0 rest with
      | .error e => .error e
      | .ok (fx, fy) => .ok { gs with food_x := fx, food_y := fy }
  else .ok gs

/-- `GameState::restart`. -/
def GameState.restart (gs : GameState) (samples : List (ℤ × ℤ)) :
    Except GameErr GameState :=
  GameState.addFood
    { gs with snake := Snake.new 3 2, score := 0, mode := .playing } samples

/-- `GameState::reset_to_menu`. -/
def GameState.resetToMenu (gs : GameState) (samples : List (ℤ × ℤ)) :
    Except GameErr GameState :=
  GameState.addFood
    { gs with snake := Snake.new 3 2, score := 0, mode := .menu } samples

/-- `GameState::new` (minus the font loading, which touches no game state):
`screen_w` and `screen_h` are the drawable size, as scaled `f32` values. -/
def GameState.init (screen_w screen_h : ℤ) (samples : List (ℤ × ℤ)) :
    Except GameErr GameState :=
  GameState.addFood
    { mode := .menu
      snake := Snake.new 3 2
      food_x := 0
      food_y := 0
      score := 0
      time_since_last_update := 0
      grid_width := f32ToI32 (fdiv screen_w cBlockSize)
      grid_height := f32ToI32 (fdiv screen_h cBlockSize) } samples

/-- `(0.15 - (self.score as f32 * 0.005)).max(0.05)` computed in exact
binary32 arithmetic (result scaled by 2³¹); `f32roundNat score` is the
`u32`-to-`f32` conversion of the score. -/
def updateInterval (score : ℕ) : ℤ :=
  fmax (fsub c0_15 (fmulInt (f32roundNat score) c0_005)) c0_05

/-- `if let Some(tail) = self.snake.tail.take() \x7b push_back(tail) \x7d`:
re-append the severed tail segment, clearing the stored copy. -/
def Snake.growTail (s : Snake) : Snake :=
  match s.tail with
  | some tl => { s with body := s.body ++ [tl], tail := none }
  | none => { s with tail := none }

/-- The body of the threshold branch of `EventHandler::update`: move, zero
the accumulator, resolve food consumption and growth, then evaluate the loss
condition (walls are checked before the self-overlap test, mirroring the
short-circuit order of the source). -/
def GameState.tick (gs : GameState) (samples : List (ℤ × ℤ)) :
    Except GameErr GameState :=
  match gs.snake.moveForward with
  | .error e => .error e
  | .ok sn1 =>
    let gs1 := { gs with snake := sn1, time_since_last_update := 0 }
    match sn1.headPosition with
    | .error e => .error e
    | .ok (hx, hy) =>
      match (if hx = gs1.food_x ∧ hy = gs1.food_y then
               GameState.addFood
                 { gs1 with snake := sn1.growTail, score := gs1.score + 1 } samples
             else .ok gs1) with
      | .error e => .error e
      | .ok gs2 =>
        if hx ≤ 0 ∨ gs2.grid_width - 1 ≤ hx ∨ hy ≤ 0 ∨ gs2.grid_height - 1 ≤ hy then
          .ok { gs2 with mode := .gameOver }
        else
          match gs2.snake.isOverlappingTail with
          | .error e => .error e
          | .ok ovl =>
            if ovl then .ok { gs2 with mode := .gameOver } else .ok gs2

/-- `EventHandler::update`: a no-op outside Playing; otherwise accumulate the
elapsed time and run at most one simulation tick. -/
def GameState.update (gs : GameState) (elapsed : ℤ) (samples : List (ℤ × ℤ)) :
    Except GameErr GameState :=
  match gs.mode with
  | .menu => .ok gs
  | .gameOver => .ok gs
  | .playing =>
    let t := fadd gs.time_since_last_update elapsed
    if updateInterval gs.score < t then GameState.tick gs samples
    else .ok { gs with time_since_last_update := t }

/-- The key symbols the game distinguishes (`KeyCode`); `other` stands for
every remaining key symbol. -/
inductive Key where
  | enter
  | up
  | down
  | left
  | right
  | w
  | a
  | s
  | d
  | other
deriving DecidableEq

/-- The movement-key table inside `key_down_event` (arrows and W/A/S/D). -/
def keyToDirection : Key → Option Direction
  | .up => some .up
  | .w => some .up
  | .down => some .down
  | .s => some .down
  | .left => some .left
  | .a => some .left
  | .right => some .right
  | .d => some .right
  | _ => none

/-- `EventHandler::key_down_event`; `keycode = none` models an event whose
key symbol could not be resolved (the whole handler body is skipped). -/
def GameState.keyDownEvent (gs : GameState) (keycode : Option Key)
    (samples : List (ℤ × ℤ)) : Except GameErr GameState :=
  match keycode with
  | none => .ok gs
  | some k =>
    match gs.mode with
    | .menu => if k = .enter then gs.restart samples else .ok gs
    | .playing =>
      match keyToDirection k with
      | some d =>
        if d ≠ gs.snake.direction.opposite then
          .ok { gs with snake := { gs.snake with direction := d } }
        else .ok gs
      | none => .ok gs
    | .gameOver => gs.resetToMenu samples

/-- `EventHandler::resize_event`: recompute the grid from the new pixel size
(scaled `f32` values), then reset to the menu. -/
def GameState.resizeEvent (gs : GameState) (width height : ℤ)
    (samples : List (ℤ × ℤ)) : Except GameErr GameState :=
  GameState.resetToMenu
    { gs with grid_width := f32ToI32 (fdiv width cBlockSize),
              grid_height := f32ToI32 (fdiv height cBlockSize) } samples

/-- One externally delivered event, carrying the random samples its handler
may consume. -/
inductive Ev where
  | updateEv (elapsed : ℤ) (samples : List (ℤ × ℤ))
  | keyEv (keycode : Option Key) (samples : List (ℤ × ℤ))
  | resizeEv (width height : ℤ) (samples : List (ℤ × ℤ))
  | restartEv (samples : List (ℤ × ℤ))
  | resetEv (samples : List (ℤ × ℤ))

/-- Dispatch one event to the corresponding session operation. -/
def gameStep (gs : GameState) : Ev → Except GameErr GameState
  | .updateEv e s => gs.update e s
  | .keyEv k s => gs.keyDownEvent k s
  | .resizeEv w h s => gs.resizeEvent w h s
  | .restartEv s => gs.restart s
  | .resetEv s => gs.resetToMenu s

/-- The states reachable from session construction through any sequence of
events. -/
inductive Reachable : GameState → Prop where
  | init (w h : ℤ) (samples : List (ℤ × ℤ)) (gs : GameState) :
      GameState.init w h samples = .ok gs → Reachable gs
  | next (gs : GameState) (ev : Ev) (gs1 : GameState) :
      Reachable gs → gameStep gs ev = .ok gs1 → Reachable gs1

/-- A second definition of one simulation tick, transcribed from the words of
the specification instead of from the source, for the refinement comparison
of claim C1: "invoke MoveForward on the snake; reset accumulator to 0; if the
new head matches the food position, reclaim the stored severed tail segment
and re-append it to the body (growth), increment score by 1, and call
AddFood(); then evaluate the loss condition (wall collision or self-overlap)
and transition to GameOver if met". -/
def tickSpec (gs : GameState) (samples : List (ℤ × ℤ)) :
    Except GameErr GameState :=
  match gs.snake.moveForward with
  | .error e => .error e
  | .ok sn1 =>
    let gs1 := { gs with snake := sn1, time_since_last_update := 0 }
    match sn1.headPosition with
    | .error e => .error e
    | .ok (hx, hy) =>
      match (if hx = gs1.food_x ∧ hy = gs1.food_y then
               GameState.addFood
                 { gs1 with snake := sn1.growTail, score := gs1.score + 1 } samples
             else .ok gs1) with
      | .error e => .error e
      | .ok gs2 =>
        if hx ≤ 0 ∨ gs2.grid_width - 1 ≤ hx ∨ hy ≤ 0 ∨ gs2.grid_height - 1 ≤ hy then
          .ok { gs2 with mode := .gameOver }
        else
          match gs2.snake.isOverlappingTail with
          | .error e => .error e
          | .ok ovl =>
            if ovl then .ok { gs2 with mode := .gameOver } else .ok gs2

/-! ## Decidable comparison of operation results -/

instance {ε α : Type} [DecidableEq ε] [DecidableEq α] : DecidableEq (Except ε α) := fun a b =>
  match a, b with
  | .error e, .error f =>
    if h : e = f then .isTrue (by rw [h]) else .isFalse (by intro hc; cases hc; exact h rfl)
  | .ok x, .ok y =>
    if h : x = y then .isTrue (by rw [h]) else .isFalse (by intro hc; cases hc; exact h rfl)
  | .error _, .ok _ => .isFalse (by intro hc; cases hc)
  | .ok _, .error _ => .isFalse (by intro hc; cases hc)

/-! ## Supporting lemmas -/

theorem opposite_ne (d : Direction) : d ≠ d.opposite := by
  cases d <;> simp [Direction.opposite]

theorem headPosition_cons (s : Snake) (c : Block) (l : List Block)
    (hb : s.body = c :: l) : s.headPosition = .ok (c.x, c.y) := by
  unfold Snake.headPosition
  rw [hb]

theorem isOverlappingTail_cons (s : Snake) (c : Block) (l : List Block)
    (hb : s.body = c :: l) :
    s.isOverlappingTail = .ok (l.any fun b => b.x == c.x && b.y == c.y) := by
  unfold Snake.isOverlappingTail
  rw [headPosition_cons s c l hb, hb]
  rfl

theorem moveForward_cons (s : Snake) (c : Block) (l : List Block)
    (hb : s.body = c :: l) :
    s.moveForward = .ok { s with body := moveOffset s.direction c :: (c :: l).dropLast,
                                 tail := (c :: l).getLast? } := by
  unfold Snake.moveForward
  rw [hb]
  rfl

theorem foodLoop_err (body : List Block) (x y : ℤ) (samples : List (ℤ × ℤ))
    (e : GameErr) (h : foodLoop body x y samples = .error e) : e = .noFuel := by
  induction samples generalizing x y with
  | nil =>
    unfold foodLoop at h
    split at h
    · injection h with h; exact h.symm
    · cases h
  | cons p rest ih =>
    obtain ⟨x1, y1⟩ := p
    unfold foodLoop at h
    split at h
    · exact ih x1 y1 h
    · cases h

theorem foodLoop_ok (body : List Block) (x y : ℤ) (samples : List (ℤ × ℤ))
    (fx fy : ℤ) (h : foodLoop body x y samples = .ok (fx, fy)) :
    cellOccupied body fx fy = false ∧ ((fx, fy) = (x, y) ∨ (fx, fy) ∈ samples) := by
  induction samples generalizing x y with
  | nil =>
    unfold foodLoop at h
    split at h
    · cases h
    · injection h with h
      obtain ⟨rfl, rfl⟩ := Prod.mk.injEq .. ▸ h.symm
      exact ⟨by simpa using ‹¬cellOccupied body fx fy = true›, Or.inl rfl⟩
  | cons p rest ih =>
    obtain ⟨x1, y1⟩ := p
    unfold foodLoop at h
    split at h
    · rcases ih x1 y1 h with ⟨hocc, hmem | hmem⟩
      · exact ⟨hocc, Or.inr (by simp [hmem])⟩
      · exact ⟨hocc, Or.inr (List.mem_cons_of_mem _ hmem)⟩
    · injection h with h
      obtain ⟨rfl, rfl⟩ := Prod.mk.injEq .. ▸ h.symm
      exact ⟨by simpa using ‹¬cellOccupied body fx fy = true›, Or.inl rfl⟩

theorem addFood_fields (gs : GameState) (samples : List (ℤ × ℤ)) (gs1 : GameState)
    (h : gs.addFood samples = .ok gs1) :
    gs1.snake = gs.snake ∧ gs1.mode = gs.mode ∧ gs1.score = gs.score ∧
    gs1.grid_width = gs.grid_width ∧ gs1.grid_height = gs.grid_height ∧
    gs1.time_since_last_update = gs.time_since_last_update := by
  unfold GameState.addFood at h
  split at h
  · split at h
    · cases h
    · split at h
      · cases h
      · injection h with h
        subst h
        exact ⟨rfl, rfl, rfl, rfl, rfl, rfl⟩
  · injection h with h
    subst h
    exact ⟨rfl, rfl, rfl, rfl, rfl, rfl⟩

theorem addFood_err (gs : GameState) (samples : List (ℤ × ℤ)) (e : GameErr)
    (h : gs.addFood samples = .error e) : e = .noFuel := by
  unfold GameState.addFood at h
  split at h
  · split at h
    · injection h with h
      exact h.symm
    · split at h
      · rename_i e1 heq
        injection h with h
        exact h ▸ foodLoop_err _ _ _ _ _ heq
      · cases h
  · cases h

/-- A concrete Playing-mode state on a 34 × 25 grid (the grid the initial
816 × 600 window produces), used to instantiate theorems with hypotheses. -/
def gsPlay : GameState :=
  { mode := .playing, snake := Snake.new 3 2, food_x := 6, food_y := 6, score := 0,
    time_since_last_update := 0, grid_width := 34, grid_height := 25 }

/-! ## Claim C3 -/

/-- C3 (counterexample): in exact binary32 arithmetic the tick interval does
not take the claimed exact values. At score 20 the computed value is
107374208·2⁻³¹ ≈ 0.050000012, which differs from the real number 0.05
(equivalently `20 · updateInterval 20 ≠ 2³¹`) and from the binary32 literal
`0.05` (`c0_05`) — so the 0.05 floor does not even bind at score 20. At score
19 the value differs from the real 0.055 (= 11/200) and from the binary32
value nearest 0.055. At score 0 the value differs from the real 0.15. -/
theorem update_interval_claimed_values_cex :
    20 * updateInterval 20 ≠ 2 ^ 31 ∧ updateInterval 20 ≠ c0_05 ∧
    200 * updateInterval 19 ≠ 11 * 2 ^ 31 ∧ updateInterval 19 ≠ f32OfPosRat 55 1000 ∧
    20 * updateInterval 0 ≠ 3 * 2 ^ 31 := by
  refine ⟨?_, ?_, ?_, ?_, ?_⟩ <;> decide

/-- C3 (amended): the tick interval is the exact binary32 evaluation of
`max(0.05, 0.15 − score · 0.005)` and never drops below the binary32 literal
`0.05`; its exact scaled-by-2³¹ values are `c0_15` = 322122560 (≈ 0.15000001)
at score 0, 118111616 (≈ 0.055000002) at score 19, 107374208 (≈ 0.050000012)
at score 20 — still strictly above the floor — and exactly the floor `c0_05`
= 107374184 (≈ 0.050000001) from score 21 on (checked at 21 and 30). -/
theorem update_interval_values :
    (∀ s : ℕ, updateInterval s
        = fmax (fsub c0_15 (fmulInt (f32roundNat s) c0_005)) c0_05
      ∧ c0_05 ≤ updateInterval s) ∧
    updateInterval 0 = c0_15 ∧
    updateInterval 19 = 118111616 ∧
    updateInterval 20 = 107374208 ∧
    updateInterval 21 = c0_05 ∧
    updateInterval 30 = c0_05 ∧
    c0_15 = 322122560 ∧ c0_05 = 107374184 ∧ c0_005 = 10737418 := by
  refine ⟨fun s => ⟨rfl, le_max_right _ _⟩, ?_, ?_, ?_, ?_, ?_, ?_, ?_, ?_⟩ <;> decide

/-! ## Claim C5 -/

/-- C5: one MoveForward prepends the head offset by the direction unit vector
(Up: y−1, Down: y+1, Left: x−1, Right: x+1), removes the previous last
segment into `tail`, and leaves the body length unchanged. -/
theorem move_forward_spec (s : Snake) (c : Block) (l : List Block)
    (hb : s.body = c :: l) :
    s.moveForward = .ok { s with body := moveOffset s.direction c :: (c :: l).dropLast,
                                 tail := (c :: l).getLast? }
    ∧ (moveOffset s.direction c :: (c :: l).dropLast).length = (c :: l).length
    ∧ moveOffset Direction.up c = ⟨c.x, c.y - 1⟩
    ∧ moveOffset Direction.down c = ⟨c.x, c.y + 1⟩
    ∧ moveOffset Direction.left c = ⟨c.x - 1, c.y⟩
    ∧ moveOffset Direction.right c = ⟨c.x + 1, c.y⟩ := by
  refine ⟨moveForward_cons s c l hb, ?_, rfl, rfl, rfl, rfl⟩
  simp

/-- Witness for C5 at the freshly constructed snake. -/
theorem move_forward_spec_witness :
    (Snake.new 3 2).moveForward
      = .ok { Snake.new 3 2 with
              body := moveOffset (Snake.new 3 2).direction ⟨3, 2⟩
                        :: ([⟨3, 2⟩, ⟨2, 2⟩, ⟨1, 2⟩] : List Block).dropLast,
              tail := ([⟨3, 2⟩, ⟨2, 2⟩, ⟨1, 2⟩] : List Block).getLast? } :=
  (move_forward_spec (Snake.new 3 2) ⟨3, 2⟩ [⟨2, 2⟩, ⟨1, 2⟩] rfl).1

/-! ## Claim C6 -/

/-- C6: in Playing mode a movement key sets the direction unless it is the
exact opposite of the current heading (then nothing changes), and a key that
maps to no movement direction — or an event with no key symbol — leaves the
state unchanged. -/
theorem key_direction_spec (gs : GameState) (k : Key) (samples : List (ℤ × ℤ))
    (hmode : gs.mode = .playing) :
    (∀ d, keyToDirection k = some d →
      gs.keyDownEvent (some k) samples =
        .ok (if d = gs.snake.direction.opposite then gs
             else { gs with snake := { gs.snake with direction := d } }))
    ∧ (keyToDirection k = none → gs.keyDownEvent (some k) samples = .ok gs)
    ∧ gs.keyDownEvent none samples = .ok gs := by
  refine ⟨?_, ?_, rfl⟩
  · intro d hd
    simp only [GameState.keyDownEvent, hmode, hd]
    by_cases hdo : d = gs.snake.direction.opposite
    · simp [hdo]
    · simp [hdo]
  · intro hd
    simp only [GameState.keyDownEvent, hmode, hd]

/-- Witness for C6: pressing Up while heading Right turns the snake Up. -/
theorem key_direction_spec_witness :
    gsPlay.keyDownEvent (some Key.up) [] =
      .ok (if Direction.up = gsPlay.snake.direction.opposite then gsPlay
           else { gsPlay with snake := { gsPlay.snake with direction := Direction.up } }) :=
  (key_direction_spec gsPlay Key.up [] rfl).1 Direction.up rfl

/-! ## Claim C7 -/

/-- C7 (counterexample): two key presses delivered between two consecutive
ticks can reverse the heading. From Right, pressing Up (accepted, Up is not
Left) and then Left (accepted, Left is not Down) leaves direction Left — the
exact opposite of Right — so the next MoveForward reverses into the neck. -/
theorem key_double_press_reversal_cex :
    gsPlay.keyDownEvent (some Key.up) []
      = .ok { gsPlay with snake := { gsPlay.snake with direction := Direction.up } }
    ∧ ({ gsPlay with snake := { gsPlay.snake with direction := Direction.up } }
        : GameState).keyDownEvent (some Key.left) []
      = .ok { gsPlay with snake := { gsPlay.snake with direction := Direction.left } }
    ∧ Direction.left = gsPlay.snake.direction.opposite :=
  ⟨rfl, rfl, rfl⟩

/-- C7 (amended): a SINGLE key-press event in Playing mode can never leave
the snake heading opposite to the direction it had before the press; the
guarantee does not extend to sequences of two or more presses between ticks
(see the counterexample). -/
theorem key_single_press_no_reversal (gs : GameState) (k : Option Key)
    (samples : List (ℤ × ℤ)) (gs1 : GameState) (hmode : gs.mode = .playing)
    (h : gs.keyDownEvent k samples = .ok gs1) :
    gs1.snake.direction ≠ gs.snake.direction.opposite := by
  cases k with
  | none =>
    simp only [GameState.keyDownEvent, Except.ok.injEq] at h
    subst h
    exact opposite_ne _
  | some kk =>
    simp only [GameState.keyDownEvent, hmode] at h
    cases hkd : keyToDirection kk with
    | none =>
      simp only [hkd, Except.ok.injEq] at h
      subst h
      exact opposite_ne _
    | some d =>
      simp only [hkd] at h
      by_cases hdo : d = gs.snake.direction.opposite
      · rw [if_neg (not_not_intro hdo)] at h
        injection h with h
        subst h
        exact opposite_ne _
      · rw [if_pos hdo] at h
        injection h with h
        subst h
        exact hdo

/-- Witness for the amended C7 at a concrete press. -/
theorem key_single_press_no_reversal_witness :
    ({ gsPlay with snake := { gsPlay.snake with direction := Direction.up } }
      : GameState).snake.direction ≠ gsPlay.snake.direction.opposite :=
  key_single_press_no_reversal gsPlay (some Key.up) [] _ rfl rfl

theorem headPosition_ok_inv (s : Snake) (hx hy : ℤ)
    (h : s.headPosition = .ok (hx, hy)) : ∃ l, s.body = ⟨hx, hy⟩ :: l := by
  unfold Snake.headPosition at h
  split at h
  · cases h
  · rename_i c l heq
    obtain ⟨cx, cy⟩ := c
    injection h with h
    rw [Prod.mk.injEq] at h
    obtain ⟨h1, h2⟩ := h
    subst h1
    subst h2
    exact ⟨l, heq⟩

theorem growTail_head (s : Snake) (c : Block) (l : List Block)
    (hb : s.body = c :: l) : ∃ l2, s.growTail.body = c :: l2 := by
  cases htl : s.tail with
  | some tl =>
    refine ⟨l ++ [tl], ?_⟩
    simp only [Snake.growTail, htl]
    simp [hb]
  | none =>
    refine ⟨l, ?_⟩
    simp only [Snake.growTail, htl]
    exact hb

/-! ## Claim C4 -/

/-- C4: with both grid dimensions above 2, every random-sampling outcome that
obeys the `gen_range` bounds makes AddFood assign a food cell with
1 ≤ x ≤ grid_width−2 and 1 ≤ y ≤ grid_height−2 that no current body segment
occupies, all other fields unchanged; with width or height at most 2,
AddFood returns the state completely unchanged. -/
theorem add_food_valid_cell (gs : GameState) (samples : List (ℤ × ℤ))
    (gs1 : GameState) :
    (2 < gs.grid_width → 2 < gs.grid_height →
      (∀ p ∈ samples, 1 ≤ p.1 ∧ p.1 ≤ gs.grid_width - 2 ∧
                      1 ≤ p.2 ∧ p.2 ≤ gs.grid_height - 2) →
      gs.addFood samples = .ok gs1 →
      (1 ≤ gs1.food_x ∧ gs1.food_x ≤ gs.grid_width - 2 ∧
       1 ≤ gs1.food_y ∧ gs1.food_y ≤ gs.grid_height - 2) ∧
      cellOccupied gs.snake.body gs1.food_x gs1.food_y = false ∧
      gs1.snake = gs.snake ∧ gs1.mode = gs.mode ∧ gs1.score = gs.score ∧
      gs1.grid_width = gs.grid_width ∧ gs1.grid_height = gs.grid_height ∧
      gs1.time_since_last_update = gs.time_since_last_update)
    ∧ ((gs.grid_width ≤ 2 ∨ gs.grid_height ≤ 2) →
      gs.addFood samples = .ok gs) := by
  constructor
  · intro hw hh hrange hok
    have hfields := addFood_fields gs samples gs1 hok
    unfold GameState.addFood at hok
    rw [if_pos ⟨hw, hh⟩] at hok
    split at hok
    · cases hok
    · rename_i x0 y0 rest
      split at hok
      · cases hok
      · rename_i fx fy hfl
        injection hok with hok
        obtain ⟨hocc, hmem⟩ := foodLoop_ok gs.snake.body x0 y0 rest fx fy hfl
        have hfx : gs1.food_x = fx := by rw [← hok]
        have hfy : gs1.food_y = fy := by rw [← hok]
        have hrng : 1 ≤ fx ∧ fx ≤ gs.grid_width - 2 ∧
            1 ≤ fy ∧ fy ≤ gs.grid_height - 2 := by
          rcases hmem with heq1 | hm
          · obtain ⟨h1, h2⟩ := Prod.ext_iff.mp heq1
            subst h1
            subst h2
            exact hrange (fx, fy) (List.mem_cons_self _ _)
          · exact hrange (fx, fy) (List.mem_cons_of_mem _ hm)
        refine ⟨?_, ?_, hfields.1, hfields.2.1, hfields.2.2.1,
                hfields.2.2.2.1, hfields.2.2.2.2.1, hfields.2.2.2.2.2⟩
        · rw [hfx, hfy]
          exact hrng
        · rw [hfx, hfy]
          exact hocc
  · intro hsmall
    have hcond : ¬(2 < gs.grid_width ∧ 2 < gs.grid_height) := by
      rcases hsmall with h | h
      · exact fun hc => absurd hc.1 (not_lt.mpr h)
      · exact fun hc => absurd hc.2 (not_lt.mpr h)
    unfold GameState.addFood
    rw [if_neg hcond]

/-- Witness for C4: placing food at the unoccupied cell (5, 5) of `gsPlay`. -/
theorem add_food_valid_cell_witness :
    cellOccupied gsPlay.snake.body
      ({ gsPlay with food_x := 5, food_y := 5 } : GameState).food_x
      ({ gsPlay with food_x := 5, food_y := 5 } : GameState).food_y = false :=
  ((add_food_valid_cell gsPlay [(5, 5)]
      { gsPlay with food_x := 5, food_y := 5 }).1
    (by decide) (by decide) (by decide) rfl).2.1

/-! ## Claim C1 -/

/-- C1: in Playing mode, whenever the accumulator (after adding the elapsed
time) exceeds the interval, Update performs exactly one simulation tick equal
to `tickSpec` — the sequence transcribed from the spec: MoveForward,
accumulator := 0, food consumption (re-append the severed tail, score + 1,
AddFood), then the loss evaluation on the possibly grown body. The tick does
not depend on the elapsed time at all, so at most one tick happens per Update
call however many intervals have passed; when the accumulator does not exceed
the interval, Update only stores the accumulated time. -/
theorem update_playing_single_tick (gs : GameState) (elapsed : ℤ)
    (samples : List (ℤ × ℤ)) (hmode : gs.mode = .playing) :
    (updateInterval gs.score < fadd gs.time_since_last_update elapsed →
      gs.update elapsed samples = tickSpec gs samples)
    ∧ (¬ updateInterval gs.score < fadd gs.time_since_last_update elapsed →
      gs.update elapsed samples =
        .ok { gs with time_since_last_update :=
                        fadd gs.time_since_last_update elapsed }) := by
  constructor
  · intro ht
    simp only [GameState.update, hmode]
    rw [if_pos ht]
    rfl
  · intro ht
    simp only [GameState.update, hmode]
    rw [if_neg ht]

/-- Witness for C1: one second elapsed in `gsPlay` triggers exactly one tick. -/
theorem update_playing_single_tick_witness :
    gsPlay.update (2 ^ 31) [] = tickSpec gsPlay [] :=
  (update_playing_single_tick gsPlay (2 ^ 31) [] rfl).1 (by decide)

/-! ## Claim C2 -/

/-- C2: after a simulation tick in Playing mode the resulting state is
GameOver exactly when the new head (hx, hy) satisfies hx ≤ 0, or
hx ≥ grid_width − 1, or hy ≤ 0, or hy ≥ grid_height − 1, or coincides with a
later segment of the (possibly grown) resulting body; otherwise the mode
stays Playing. -/
theorem update_game_over_condition (gs : GameState) (elapsed : ℤ)
    (samples : List (ℤ × ℤ)) (sn1 : Snake) (hx hy : ℤ) (gs' : GameState)
    (hmode : gs.mode = .playing)
    (ht : updateInterval gs.score < fadd gs.time_since_last_update elapsed)
    (hmv : gs.snake.moveForward = .ok sn1)
    (hhd : sn1.headPosition = .ok (hx, hy))
    (hok : gs.update elapsed samples = .ok gs') :
    (gs'.mode = .gameOver ↔
      hx ≤ 0 ∨ gs.grid_width - 1 ≤ hx ∨ hy ≤ 0 ∨ gs.grid_height - 1 ≤ hy ∨
      ((gs'.snake.body.drop 1).any fun b => b.x == hx && b.y == hy) = true)
    ∧ (gs'.mode ≠ .gameOver → gs'.mode = .playing) := by
  obtain ⟨l1, hbody1⟩ := headPosition_ok_inv sn1 hx hy hhd
  simp only [GameState.update, hmode] at hok
  rw [if_pos ht] at hok
  unfold GameState.tick at hok
  simp only [hmv, hhd] at hok
  split at hok
  · cases hok
  · rename_i gs2 heq2
    have hgs2 : gs2.grid_width = gs.grid_width ∧ gs2.grid_height = gs.grid_height ∧
        gs2.mode = GameMode.playing ∧ ∃ l2, gs2.snake.body = ⟨hx, hy⟩ :: l2 := by
      split at heq2
      · obtain ⟨hs, hm, hsc, hw2, hh2, htm⟩ := addFood_fields _ _ _ heq2
        obtain ⟨l2, hl2⟩ := growTail_head sn1 ⟨hx, hy⟩ l1 hbody1
        exact ⟨hw2.trans rfl, hh2.trans rfl, (hm.trans rfl).trans hmode,
               l2, by rw [hs]; exact hl2⟩
      · injection heq2 with heq2
        subst heq2
        exact ⟨rfl, rfl, hmode, l1, hbody1⟩
    obtain ⟨hgw, hgh, hm2, l2, hsb⟩ := hgs2
    split at hok
    · rename_i hw
      injection hok with hok
      subst hok
      refine ⟨⟨fun _ => ?_, fun _ => rfl⟩, fun hne => absurd rfl hne⟩
      rw [hgw, hgh] at hw
      rcases hw with h | h | h | h
      exacts [Or.inl h, Or.inr (Or.inl h), Or.inr (Or.inr (Or.inl h)),
              Or.inr (Or.inr (Or.inr (Or.inl h)))]
    · rename_i hnw
      split at hok
      · cases hok
      · rename_i ovl hovq
        have hov := isOverlappingTail_cons gs2.snake ⟨hx, hy⟩ l2 hsb
        rw [hovq] at hov
        injection hov with hov
        split at hok
        · rename_i hovl
          injection hok with hok
          subst hok
          refine ⟨⟨fun _ => ?_, fun _ => rfl⟩, fun hne => absurd rfl hne⟩
          refine Or.inr (Or.inr (Or.inr (Or.inr ?_)))
          rw [show ({ gs2 with mode := GameMode.gameOver } : GameState).snake
                = gs2.snake from rfl, hsb]
          simp only [List.drop_succ_cons, List.drop_zero]
          rw [← hov]
          exact hovl
        · rename_i hnovl
          injection hok with hok
          subst hok
          constructor
          · constructor
            · intro hmo
              rw [hm2] at hmo
              cases hmo
            · intro hrhs
              exfalso
              rcases hrhs with h | h | h | h | h
              · exact hnw (Or.inl h)
              · rw [← hgw] at h
                exact hnw (Or.inr (Or.inl h))
              · exact hnw (Or.inr (Or.inr (Or.inl h)))
              · rw [← hgh] at h
                exact hnw (Or.inr (Or.inr (Or.inr h)))
              · rw [hsb] at h
                simp only [List.drop_succ_cons, List.drop_zero] at h
                rw [← hov] at h
                exact hnovl h
          · intro _
            exact hm2

/-- The state produced by one tick of `gsPlay` on a 5 × 5 grid: the head
lands on the right wall column, so the mode is GameOver. -/
def gsEdgeA : GameState :=
  { mode := .gameOver,
    snake := { direction := .right, body := [⟨4, 2⟩, ⟨3, 2⟩, ⟨2, 2⟩],
               tail := some ⟨1, 2⟩ },
    food_x := 6, food_y := 6, score := 0, time_since_last_update := 0,
    grid_width := 5, grid_height := 5 }

/-- Witness for C2: on a 5 × 5 grid the head moves onto the right wall column
and the tick ends in GameOver. -/
theorem update_game_over_condition_witness :
    gsEdgeA.mode = GameMode.gameOver :=
  (update_game_over_condition { gsPlay with grid_width := 5, grid_height := 5 }
    (2 ^ 31) [] { direction := .right, body := [⟨4, 2⟩, ⟨3, 2⟩, ⟨2, 2⟩],
                  tail := some ⟨1, 2⟩ }
    4 2 gsEdgeA rfl (by decide) (by decide) (by decide) (by decide)).1.mpr
    (by decide)

/-! ## Claim C8 -/

/-- The state a resize to 816 × 600 pixels produces from `gsPlay` with sample
stream [(1, 1)]; also the state `GameState.init` produces for the initial
816 × 600 window with that stream. -/
def gsMenu34 : GameState :=
  { mode := .menu, snake := Snake.new 3 2, food_x := 1, food_y := 1, score := 0,
    time_since_last_update := 0, grid_width := 34, grid_height := 25 }

/-- The state a resize to the representable f32 width 402653216 (height 600)
produces from `gsPlay`: the f32 quotient 402653216 / 24.0 rounds up to
16777218, one more than floor(402653216 / 24) = 16777217. -/
def gsMenuBig : GameState :=
  { mode := .menu, snake := Snake.new 3 2, food_x := 1, food_y := 1, score := 0,
    time_since_last_update := 0, grid_width := 16777218, grid_height := 25 }

/-- C8 (counterexample): the resulting grid width is not floor(w/24) for
every pixel width. The width 402653216 is exactly representable in binary32,
yet resizing to it yields grid_width 16777218 while floor(402653216/24) =
16777217 — the correctly rounded f32 quotient overshoots the real quotient
past the next integer. -/
theorem resize_floor_formula_cex :
    f32round (402653216 * 2 ^ 31) = 402653216 * 2 ^ 31 ∧
    gsPlay.resizeEvent (402653216 * 2 ^ 31) (600 * 2 ^ 31) [(1, 1)]
      = .ok gsMenuBig ∧
    (402653216 : ℤ) / 24 = 16777217 ∧
    gsMenuBig.grid_width ≠ (402653216 : ℤ) / 24 := by
  refine ⟨by decide, by decide, by decide, by decide⟩

/-- C8 (amended): a resize event from any mode and score yields mode = Menu,
score = 0, a freshly constructed snake at (3, 2), food re-assigned by AddFood
on the new grid, and grid dimensions obtained by truncating the exact
binary32 quotient of the pixel size by 24.0 — which equals floor(size/24) at
ordinary window sizes (816 × 600 ↦ 34 × 25) though not for all enormous
widths (see the counterexample). -/
theorem resize_resets_session (gs : GameState) (w h : ℤ)
    (samples : List (ℤ × ℤ)) (gs1 : GameState)
    (hok : gs.resizeEvent w h samples = .ok gs1) :
    gs1.mode = .menu ∧ gs1.score = 0 ∧ gs1.snake = Snake.new 3 2 ∧
    gs1.grid_width = f32ToI32 (fdiv w cBlockSize) ∧
    gs1.grid_height = f32ToI32 (fdiv h cBlockSize) ∧
    gs.resizeEvent w h samples
      = GameState.addFood
          { gs with mode := .menu, snake := Snake.new 3 2, score := 0,
                    grid_width := f32ToI32 (fdiv w cBlockSize),
                    grid_height := f32ToI32 (fdiv h cBlockSize) } samples ∧
    f32ToI32 (fdiv (816 * 2 ^ 31) cBlockSize) = 34 ∧
    f32ToI32 (fdiv (600 * 2 ^ 31) cBlockSize) = 25 := by
  unfold GameState.resizeEvent GameState.resetToMenu at hok
  obtain ⟨hs, hm, hsc, hw2, hh2, htm⟩ := addFood_fields _ _ _ hok
  exact ⟨hm.trans rfl, hsc.trans rfl, hs.trans rfl, hw2.trans rfl,
         hh2.trans rfl, rfl, by decide, by decide⟩

/-- Witness for the amended C8 at the 816 × 600 resize of `gsPlay`. -/
theorem resize_resets_session_witness :
    gsMenu34.mode = GameMode.menu ∧
    gsMenu34.grid_width = f32ToI32 (fdiv (816 * 2 ^ 31) cBlockSize) :=
  ⟨(resize_resets_session gsPlay (816 * 2 ^ 31) (600 * 2 ^ 31) [(1, 1)]
      gsMenu34 (by decide)).1,
   (resize_resets_session gsPlay (816 * 2 ^ 31) (600 * 2 ^ 31) [(1, 1)]
      gsMenu34 (by decide)).2.2.2.1⟩

/-! ## Reachable-state invariants (claims C9 and C10) -/

theorem getLast?_cons_eq (c : Block) (l : List Block) :
    (c :: l).getLast? = some ((c :: l).getLast (List.cons_ne_nil c l)) := rfl

theorem tick_ok_len (gs : GameState) (samples : List (ℤ × ℤ)) (gs1 : GameState)
    (c : Block) (l : List Block) (hb : gs.snake.body = c :: l)
    (h : gs.tick samples = .ok gs1) :
    (gs1.snake.body.length = gs.snake.body.length ∧ gs1.score = gs.score) ∨
    (gs1.snake.body.length = gs.snake.body.length + 1 ∧
     gs1.score = gs.score + 1) := by
  obtain ⟨md, sn, fx, fy, sc, tm, gw, gh⟩ := gs
  obtain ⟨dir, body, tl⟩ := sn
  replace hb : body = c :: l := hb
  subst hb
  unfold GameState.tick at h
  simp only [Snake.moveForward, List.dropLast_cons₂, Snake.headPosition] at h
  split at h
  · cases h
  · rename_i gs2 heq2
    have hkey : (gs2.snake.body.length = l.length + 1 ∧ gs2.score = sc) ∨
        (gs2.snake.body.length = l.length + 2 ∧ gs2.score = sc + 1) := by
      split at heq2
      · obtain ⟨hs, _, hsc, _, _, _⟩ := addFood_fields _ _ _ heq2
        right
        constructor
        · rw [hs]
          simp only [Snake.growTail, getLast?_cons_eq, List.length_append,
                     List.length_dropLast, List.length_cons, List.length_nil]
          omega
        · rw [hsc]
      · injection heq2 with heq2
        subst heq2
        left
        constructor
        · simp only [List.length_cons, List.length_dropLast]
          omega
        · rfl
    have hfin : gs1.snake = gs2.snake ∧ gs1.score = gs2.score := by
      split at h
      · injection h with h
        subst h
        exact ⟨rfl, rfl⟩
      · split at h
        · cases h
        · split at h
          · injection h with h
            subst h
            exact ⟨rfl, rfl⟩
          · injection h with h
            subst h
            exact ⟨rfl, rfl⟩
    rcases hkey with ⟨h1, h2⟩ | ⟨h1, h2⟩
    · exact Or.inl ⟨by simp [hfin.1, h1], by simp [hfin.2, h2]⟩
    · exact Or.inr ⟨by simp [hfin.1, h1], by simp [hfin.2, h2]⟩

theorem tick_err (gs : GameState) (samples : List (ℤ × ℤ)) (e : GameErr)
    (c : Block) (l : List Block) (hb : gs.snake.body = c :: l)
    (h : gs.tick samples = .error e) : e = .noFuel := by
  obtain ⟨md, sn, fx, fy, sc, tm, gw, gh⟩ := gs
  obtain ⟨dir, body, tl⟩ := sn
  replace hb : body = c :: l := hb
  subst hb
  unfold GameState.tick at h
  simp only [Snake.moveForward, List.dropLast_cons₂, Snake.headPosition] at h
  split at h
  · rename_i e2 heq2
    injection h with h
    subst h
    split at heq2
    · exact addFood_err _ _ _ heq2
    · cases heq2
  · rename_i gs2 heq2
    split at h
    · cases h
    · split at h
      · rename_i e3 hov
        have hcons : ∃ c2 l2, gs2.snake.body = c2 :: l2 := by
          split at heq2
          · obtain ⟨hs, _, _, _, _, _⟩ := addFood_fields _ _ _ heq2
            obtain ⟨l2, hl2⟩ :=
              growTail_head
                { direction := dir, body := moveOffset dir c :: (c :: l).dropLast,
                  tail := (moveOffset dir c :: c :: l).getLast? }
                (moveOffset dir c) ((c :: l).dropLast) rfl
            exact ⟨moveOffset dir c, l2, by rw [hs]; exact hl2⟩
          · injection heq2 with heq2
            subst heq2
            exact ⟨moveOffset dir c, (c :: l).dropLast, rfl⟩
        obtain ⟨c2, l2, hcl2⟩ := hcons
        rw [isOverlappingTail_cons gs2.snake c2 l2 hcl2] at hov
        cases hov
      · rename_i ovl hovq
        split at h
        · cases h
        · cases h

theorem inv_addFood_reset (base : GameState) (samples : List (ℤ × ℤ))
    (gs1 : GameState) (hsn : base.snake = Snake.new 3 2) (hsc : base.score = 0)
    (h : base.addFood samples = .ok gs1) :
    gs1.snake.body.length = gs1.score + 3 := by
  obtain ⟨hs, _, hscf, _, _, _⟩ := addFood_fields _ _ _ h
  rw [hs, hsn, hscf, hsc]
  rfl

theorem inv_update (gs : GameState) (elapsed : ℤ) (samples : List (ℤ × ℤ))
    (gs1 : GameState) (hinv : gs.snake.body.length = gs.score + 3)
    (h : gs.update elapsed samples = .ok gs1) :
    gs1.snake.body.length = gs1.score + 3 := by
  simp only [GameState.update] at h
  split at h
  · injection h with h
    subst h
    exact hinv
  · injection h with h
    subst h
    exact hinv
  · split at h
    · have hne : ∃ c l, gs.snake.body = c :: l := by
        cases hcl : gs.snake.body with
        | nil =>
          rw [hcl] at hinv
          exact absurd hinv (by simp only [List.length_nil]; omega)
        | cons c l => exact ⟨c, l, rfl⟩
      obtain ⟨c, l, hb⟩ := hne
      rcases tick_ok_len gs samples gs1 c l hb h with ⟨h1, h2⟩ | ⟨h1, h2⟩
      · rw [h1, h2]
        exact hinv
      · rw [h1, h2]
        omega
    · injection h with h
      subst h
      exact hinv

theorem inv_keyDown (gs : GameState) (k : Option Key) (samples : List (ℤ × ℤ))
    (gs1 : GameState) (hinv : gs.snake.body.length = gs.score + 3)
    (h : gs.keyDownEvent k samples = .ok gs1) :
    gs1.snake.body.length = gs1.score + 3 := by
  unfold GameState.keyDownEvent at h
  split at h
  · injection h with h
    subst h
    exact hinv
  · split at h
    · split at h
      · exact inv_addFood_reset _ _ _ rfl rfl h
      · injection h with h
        subst h
        exact hinv
    · split at h
      · split at h
        · injection h with h
          subst h
          exact hinv
        · injection h with h
          subst h
          exact hinv
      · injection h with h
        subst h
        exact hinv
    · exact inv_addFood_reset _ _ _ rfl rfl h

theorem inv_step (gs : GameState) (ev : Ev) (gs1 : GameState)
    (hinv : gs.snake.body.length = gs.score + 3)
    (h : gameStep gs ev = .ok gs1) :
    gs1.snake.body.length = gs1.score + 3 := by
  cases ev with
  | updateEv e s => exact inv_update gs e s gs1 hinv h
  | keyEv k s => exact inv_keyDown gs k s gs1 hinv h
  | resizeEv w hh s => exact inv_addFood_reset _ _ _ rfl rfl h
  | restartEv s => exact inv_addFood_reset _ _ _ rfl rfl h
  | resetEv s => exact inv_addFood_reset _ _ _ rfl rfl h

theorem reachable_inv (gs : GameState) (h : Reachable gs) :
    gs.snake.body.length = gs.score + 3 := by
  induction h with
  | init w hh samples gs0 hok => exact inv_addFood_reset _ _ _ rfl rfl hok
  | next gs0 ev gs1 hr hstep ih => exact inv_step gs0 ev gs1 ih hstep

theorem keyDown_err (gs : GameState) (k : Option Key) (samples : List (ℤ × ℤ))
    (e : GameErr) (h : gs.keyDownEvent k samples = .error e) : e = .noFuel := by
  unfold GameState.keyDownEvent at h
  split at h
  · cases h
  · split at h
    · split at h
      · exact addFood_err _ _ _ h
      · cases h
    · split at h
      · split at h
        · cases h
        · cases h
      · cases h
    · exact addFood_err _ _ _ h

theorem update_err (gs : GameState) (elapsed : ℤ) (samples : List (ℤ × ℤ))
    (e : GameErr) (c : Block) (l : List Block) (hb : gs.snake.body = c :: l)
    (h : gs.update elapsed samples = .error e) : e = .noFuel := by
  simp only [GameState.update] at h
  split at h
  · cases h
  · cases h
  · split at h
    · exact tick_err gs samples e c l hb h
    · cases h

theorem step_err (gs : GameState) (ev : Ev) (e : GameErr) (c : Block)
    (l : List Block) (hb : gs.snake.body = c :: l)
    (h : gameStep gs ev = .error e) : e = .noFuel := by
  cases ev with
  | updateEv el s => exact update_err gs el s e c l hb h
  | keyEv k s => exact keyDown_err gs k s e h
  | resizeEv w hh s => exact addFood_err _ _ _ h
  | restartEv s => exact addFood_err _ _ _ h
  | resetEv s => exact addFood_err _ _ _ h

/-! ## Claim C9 -/

/-- C9: session construction never raises the fatal empty-body error, every
reachable state has a nonempty snake body, and no event delivered to a
reachable state can produce the fatal empty-body error — the `expect`/
`unwrap` panic branches of the head lookups are unreachable. (The separate
`noFuel` outcome is only an artifact of feeding the unbounded food-sampling
loop with a finite sample stream, not a failure of the code.) -/
theorem reachable_no_fatal :
    (∀ w h samples, GameState.init w h samples ≠ .error GameErr.bodyEmpty) ∧
    ∀ gs : GameState, Reachable gs →
      gs.snake.body ≠ [] ∧
      ∀ ev : Ev, gameStep gs ev ≠ .error GameErr.bodyEmpty := by
  constructor
  · intro w h samples hcon
    cases addFood_err _ _ _ hcon
  · intro gs hr
    have hinv := reachable_inv gs hr
    have hne : ∃ c l, gs.snake.body = c :: l := by
      cases hcl : gs.snake.body with
      | nil =>
        rw [hcl] at hinv
        exact absurd hinv (by simp only [List.length_nil]; omega)
      | cons c l => exact ⟨c, l, rfl⟩
    obtain ⟨c, l, hb⟩ := hne
    refine ⟨by rw [hb]; exact List.cons_ne_nil c l, ?_⟩
    intro ev hcon
    cases step_err gs ev GameErr.bodyEmpty c l hb hcon

/-- Witness for C9 at the state constructed for the 816 × 600 window. -/
theorem reachable_no_fatal_witness : gsMenu34.snake.body ≠ [] :=
  (reachable_no_fatal.2 gsMenu34
    (Reachable.init (816 * 2 ^ 31) (600 * 2 ^ 31) [(1, 1)] gsMenu34
      (by decide))).1

/-! ## Claim C10 -/

/-- C10: construction produces a 3-segment snake, and in every reachable
state the body length equals score + 3 — a non-eating tick preserves both, an
eating tick increments both by exactly one (the severed tail stored by the
move is always available to re-append), and every reset re-establishes
length 3 with score 0. -/
theorem reachable_body_length :
    (Snake.new 3 2).body.length = 3 ∧
    ∀ gs : GameState, Reachable gs → gs.snake.body.length = gs.score + 3 :=
  ⟨rfl, fun gs h => reachable_inv gs h⟩

/-- Witness for C10 at the state constructed for the 816 × 600 window. -/
theorem reachable_body_length_witness :
    gsMenu34.snake.body.length = gsMenu34.score + 3 :=
  reachable_body_length.2 gsMenu34
    (Reachable.init (816 * 2 ^ 31) (600 * 2 ^ 31) [(1, 1)] gsMenu34
      (by decide))

end RustedSnake
